import Mathlib

/-!
Verification of the tool-proxy server: a shallow embedding of the
tool cache, backend connection pool, Bedrock search delegation and the two
request handlers (search_tools / call_tool), together with proofs of the
specified properties.

Modelling conventions:
* A JavaScript `Map` is an insertion-ordered association list; `set` replaces
  the value of an existing key in place (keeping its insertion position) and
  appends new keys at the end.
* External effects (the Bedrock model invocation, live backend connections)
  are passed in as explicit function arguments ("oracles"); a call that can
  throw returns `Except String`.
* JS `number` counts are modelled as `Nat`; the JS truthiness of a
  string-or-undefined value is `none` or the empty string, of a
  number-or-undefined value `none` or `0`.
-/

set_option maxRecDepth 8000

namespace ToolProxy

/-! ### Data model (src/types.ts) -/

/-- An opaque JSON document; `emptyObjectSchema` is the empty object schema
used as the default input schema by the backend pool. -/
inductive JsonDoc where
  | emptyObjectSchema : JsonDoc
  | doc (s : String) : JsonDoc
deriving DecidableEq

/-- Tool definition matching Anthropic schema (`types.ts`). -/
structure ToolDefinition where
  name : String
  description : String
  input_schema : JsonDoc
  defer_loading : Option Bool
deriving DecidableEq

/-- Opaque JS object passed as tool-call arguments. -/
abbrev Args := List (String × String)

/-- Opaque raw result returned by a backend tool call. -/
abbrev BackendResult := String

/-! ### JavaScript `Map`, as an insertion-ordered association list -/

def setEntry {β : Type} : List (String × β) → String → β → List (String × β)
  | [], k, v => [(k, v)]
  | e :: rest, k, v => if e.1 == k then (k, v) :: rest else e :: setEntry rest k v

def getEntry {β : Type} : List (String × β) → String → Option β
  | [], _ => none
  | e :: rest, k => if e.1 == k then some e.2 else getEntry rest k

def keys {β : Type} (m : List (String × β)) : List String := m.map Prod.fst

/-! ### Tool cache (src/tool-cache.ts) -/

/-- Extended tool info with routing data (`CachedTool`). -/
structure CachedTool where
  serverName : String
  originalName : String
  prefixedName : String
  definition : ToolDefinition
deriving DecidableEq

/-- Route info for tool calls (`ToolRoute`). -/
structure ToolRoute where
  server : String
  tool : String
deriving DecidableEq

/-- In-memory cache for all backend tool definitions (`ToolCache`). -/
structure ToolCache where
  tools : List (String × CachedTool)
deriving DecidableEq

/-- One step of `ToolCache.addFromServer`: store one tool under its
prefixed name `serverName__originalName`. -/
def cacheStep (serverName : String) (m : List (String × CachedTool))
    (tool : ToolDefinition) : List (String × CachedTool) :=
  setEntry m (serverName ++ "__" ++ tool.name)
    { serverName := serverName
      originalName := tool.name
      prefixedName := serverName ++ "__" ++ tool.name
      definition := { tool with name := serverName ++ "__" ++ tool.name } }

/-- `addFromServer`: add tools from a backend server to the cache, prefixing
each tool name with the server name for uniqueness. -/
def ToolCache.addFromServer (c : ToolCache) (serverName : String)
    (ts : List ToolDefinition) : ToolCache :=
  ⟨ts.foldl (cacheStep serverName) c.tools⟩

/-- `getAllDefinitions`: all tool definitions, with prefixed names. -/
def ToolCache.getAllDefinitions (c : ToolCache) : List ToolDefinition :=
  c.tools.map (fun e => e.2.definition)

/-- `get`: a specific cached tool by prefixed name. -/
def ToolCache.get (c : ToolCache) (prefixedName : String) : Option CachedTool :=
  getEntry c.tools prefixedName

/-- `getRoute`: routing info (server name and original tool name). -/
def ToolCache.getRoute (c : ToolCache) (prefixedName : String) : Option ToolRoute :=
  (c.get prefixedName).map (fun cached => ⟨cached.serverName, cached.originalName⟩)

/-- `size`: total number of cached tools. -/
def ToolCache.size (c : ToolCache) : Nat := c.tools.length

/-- `getToolNames`: list of all tool names. -/
def ToolCache.getToolNames (c : ToolCache) : List String := keys c.tools

/-- `clear`: drop all entries. -/
def ToolCache.clear (_c : ToolCache) : ToolCache := ⟨[]⟩

/-! ### Bedrock client (src/bedrock-client.ts) -/

/-- A text content block of the outgoing user message. -/
structure RequestContentBlock where
  type : String
  text : String
deriving DecidableEq

/-- Anthropic Messages API message. -/
structure Message where
  role : String
  content : List RequestContentBlock
deriving DecidableEq

/-- One entry of the `tools` array of the Bedrock request: either the
tool-search tool descriptor placed by `invokeWithToolSearch`, or a
(deferred) tool definition. -/
inductive RequestToolEntry where
  | searchCapability (ty : String) (nm : String)
  | definitionEntry (d : ToolDefinition)
deriving DecidableEq

/-- The JSON request body built by `invokeWithToolSearch`. -/
structure SearchRequestBody where
  anthropic_version : String
  anthropic_beta : List String
  max_tokens : Nat
  messages : List Message
  tools : List RequestToolEntry
deriving DecidableEq

/-- The pure part of `invokeWithToolSearch`: mark all candidate tools as
deferred, place the (non-deferred) tool-search tool first, and assemble the
request body. -/
def buildSearchRequestBody (messages : List Message) (tools : List ToolDefinition)
    (searchType : String) : SearchRequestBody :=
  { anthropic_version := "bedrock-2023-05-31"
    anthropic_beta := ["tool-search-tool-2025-10-19"]
    max_tokens := 4096
    messages := messages
    tools := RequestToolEntry.searchCapability searchType searchType ::
      tools.map (fun t => RequestToolEntry.definitionEntry
        { name := t.name
          description := t.description
          input_schema := t.input_schema
          defer_loading := some true }) }

/-- A tool reference entry inside a search-result block. -/
structure ToolRefEntry where
  type : String
  tool_name : String
deriving DecidableEq

/-- The `content` object of a `tool_search_tool_result` block. -/
structure SearchResultContent where
  type : String
  tool_references : Option (List ToolRefEntry)
deriving DecidableEq

/-- A content block of the Bedrock response, discriminated by `type`; the
`content` field is present on search-result blocks. -/
structure ResponseContentBlock where
  type : String
  tool_use_id : Option String
  content : Option SearchResultContent
deriving DecidableEq

/-- Token usage reported by Bedrock. -/
structure UsageInfo where
  input_tokens : Nat
  output_tokens : Nat
deriving DecidableEq

/-- Bedrock response (`types.ts BedrockResponse`). -/
structure BedrockResponse where
  id : String
  type : String
  role : String
  content : List ResponseContentBlock
  model : String
  stop_reason : String
  stop_sequence : Option String
  usage : UsageInfo
deriving DecidableEq

/-- `invokeWithToolSearch`: builds the request body and sends it through the
Bedrock client (an oracle here, which may throw). -/
def invokeWithToolSearch (send : SearchRequestBody → Except String BedrockResponse)
    (messages : List Message) (tools : List ToolDefinition)
    (searchType : String) : Except String BedrockResponse :=
  send (buildSearchRequestBody messages tools searchType)

/-- The accumulation loop of `extractToolReferences`: scan the response's
content blocks for `tool_search_tool_result` blocks and collect the (truthy)
`tool_name` of every reference, in response order. -/
def collectToolRefs (response : BedrockResponse) : List String :=
  response.content.foldl (fun toolRefs block =>
    if block.type == "tool_search_tool_result" then
      match block.content with
      | some sc =>
        match sc.tool_references with
        | some refs =>
          refs.foldl (fun acc ref =>
            if ref.tool_name ≠ "" then acc ++ [ref.tool_name] else acc) toolRefs
        | none => toolRefs
      | none => toolRefs
    else toolRefs) []

/-- `extractToolReferences`: collected references truncated to `maxResults`
(`toolRefs.slice(0, maxResults)`). -/
def extractToolReferences (response : BedrockResponse) (maxResults : Nat) : List String :=
  (collectToolRefs response).take maxResults

/-! ### Backend connection pool (src/backend-pool.ts) -/

/-- Backend server configuration (`BackendServerConfig`). -/
structure BackendServerConfig where
  command : Option String
  args : Option (List String)
  env : Option (List (String × String))
  cwd : Option String
  url : Option String
  type : Option String
  headers : Option (List (String × String))
deriving DecidableEq

/-- Connected backend client: the live connection is modelled by the
behavior of its `callTool` method. -/
structure BackendClient where
  callToolFn : String → Args → Except String BackendResult
  config : BackendServerConfig

/-- The backend pool: live clients keyed by server name, plus the (shared)
tool cache instance handed to the constructor. -/
structure BackendPool where
  clients : List (String × BackendClient)
  toolCache : ToolCache

/-- A raw tool as enumerated by a backend's `listTools` (description and
input schema may be absent). -/
structure RawTool where
  name : String
  description : Option String
  inputSchema : Option JsonDoc
deriving DecidableEq

/-- The translation of a raw backend tool performed in `connectServer`:
absent description defaults to the empty string, absent input schema to the
empty object schema. -/
def RawTool.toDefinition (t : RawTool) : ToolDefinition :=
  { name := t.name
    description := t.description.getD ""
    input_schema := t.inputSchema.getD JsonDoc.emptyObjectSchema
    defer_loading := none }

/-- The outcome of attempting to connect one backend (connect + listTools
are external): either the attempt throws, or it yields the enumerated tools
and the live connection's behavior. -/
inductive ConnectOutcome where
  | fail (msg : String)
  | ok (rawTools : List RawTool) (callToolFn : String → Args → Except String BackendResult)

/-- Whether a connection outcome is a failure. -/
def ConnectOutcome.isFail : ConnectOutcome → Bool
  | .fail _ => true
  | .ok _ _ => false

/-- One declared backend of the configuration file, together with the
external outcome of connecting to it. -/
abbrev BackendEntry := String × BackendServerConfig × ConnectOutcome

/-- One iteration of the `initialize` loop: `connectServer` caches the
backend's tools and retains the client; a thrown error is caught and the
backend skipped. -/
def connectStep (p : BackendPool) (e : BackendEntry) : BackendPool :=
  match e.2.2 with
  | .fail _ => p
  | .ok rawTools fn =>
    { toolCache := p.toolCache.addFromServer e.1 (rawTools.map RawTool.toDefinition)
      clients := setEntry p.clients e.1 ⟨fn, e.2.1⟩ }

/-- The `initialize` loop of the pool (models `BackendPool.initialize`):
connect to each declared backend in order, isolating per-backend failures. -/
def initializePool (p : BackendPool) (backends : List BackendEntry) : BackendPool :=
  backends.foldl connectStep p

/-- `callTool`: call a tool on a specific backend server; throws
"Backend server not found" when no live client exists for it. -/
def BackendPool.callTool (p : BackendPool) (serverName : String) (toolName : String)
    (args : Args) : Except String BackendResult :=
  match getEntry p.clients serverName with
  | none => .error ("Backend server not found: " ++ serverName)
  | some backend => backend.callToolFn toolName args

/-- `getConnectedServers`: names of backends with a live connection. -/
def BackendPool.getConnectedServers (p : BackendPool) : List String := keys p.clients

/-- `close`: close every live connection (external, best effort) and clear
the client set; the tool cache is not touched. -/
def BackendPool.close (p : BackendPool) : BackendPool := { p with clients := [] }

/-! ### Request handlers (src/index.ts) -/

/-- JS truthiness of a string-or-undefined value (`!x`). -/
def strFalsy : Option String → Bool
  | none => true
  | some s => s == ""

/-- JS `x || d` for a number-or-undefined value (`0` is falsy). -/
def natOr (x : Option Nat) (d : Nat) : Nat :=
  match x with
  | none => d
  | some n => if n == 0 then d else n

/-- One entry of the `tools` array of the search_tools response payload. -/
structure EnrichedTool where
  name : String
  description : String
deriving DecidableEq

/-- The JSON text content emitted by the search_tools handler, by shape. -/
inductive SearchToolsContent where
  | plainText (text : String)
  | noToolsPayload (error : String) (tool_references : List String)
  | resultsPayload (tool_references : List String) (tools : List EnrichedTool)
      (query : String) (total_tools_available : Nat)
deriving DecidableEq

/-- The result of the search_tools handler (content plus the `isError` flag;
an absent flag is `false`). -/
structure SearchToolsResult where
  content : SearchToolsContent
  isError : Bool
deriving DecidableEq

/-- The ≤200-character description attached to a returned reference
(`cached?.definition.description?.substring(0, 200) || ""`). -/
def describeRef (cache : ToolCache) (ref : String) : String :=
  match cache.get ref with
  | some cached => cached.definition.description.take 200
  | none => ""

/-- The search_tools branch of the CallToolRequest handler. The Bedrock
invocation is an oracle; a thrown error is caught and surfaced. -/
def searchToolsHandler (cache : ToolCache) (query : Option String)
    (max_results : Option Nat)
    (send : SearchRequestBody → Except String BedrockResponse) : SearchToolsResult :=
  if strFalsy query then
    ⟨.plainText "Error: query parameter is required", true⟩
  else
    let q := query.getD ""
    let allTools := cache.getAllDefinitions
    if allTools.length == 0 then
      ⟨.noToolsPayload "No tools available. Backend servers may not be connected." [], false⟩
    else
      let maxResults := natOr max_results 5
      match invokeWithToolSearch send [⟨"user", [⟨"text", q⟩]⟩] allTools
          "tool_search_tool_regex" with
      | .error e => ⟨.plainText ("Error searching tools: " ++ e), true⟩
      | .ok response =>
        let toolRefs := extractToolReferences response maxResults
        ⟨.resultsPayload toolRefs (toolRefs.map (fun ref => ⟨ref, describeRef cache ref⟩))
          q allTools.length, false⟩

/-- The `tool_references` field of the payload produced by the search_tools
handler (empty for a plain error text). -/
def refsOf (r : SearchToolsResult) : List String :=
  match r.content with
  | .plainText _ => []
  | .noToolsPayload _ refs => refs
  | .resultsPayload refs _ _ _ => refs

/-- The result of the call_tool handler: the emitted text content and the
`isError` flag. -/
structure CallToolResult where
  text : String
  isError : Bool
deriving DecidableEq

/-- The unknown-tool error text of the call_tool handler. -/
def unknownToolText (tool_name : String) : String :=
  "Error: Unknown tool \"" ++ tool_name ++ "\". Use search_tools to find available tools."

/-- JSON.stringify of the (opaque, already serialized) raw backend result. -/
def jsonStringify (result : BackendResult) : String := result

/-- The call_tool branch of the CallToolRequest handler. Routing goes through
the cache shared with the pool; a throw from `callTool` is caught and
surfaced as "Error calling tool: ...". -/
def callToolHandler (pool : BackendPool) (tool_name : Option String)
    (toolArgs : Option Args) : CallToolResult :=
  if strFalsy tool_name then
    ⟨"Error: tool_name parameter is required", true⟩
  else
    let nm := tool_name.getD ""
    match pool.toolCache.getRoute nm with
    | none => ⟨unknownToolText nm, true⟩
    | some route =>
      match pool.callTool route.server route.tool (toolArgs.getD []) with
      | .error msg => ⟨"Error calling tool: " ++ msg, true⟩
      | .ok result => ⟨jsonStringify result, false⟩

/-! ### Lemmas about the map model -/

theorem getEntry_setEntry_self {β : Type} (k : String) (v : β) :
    ∀ m : List (String × β), getEntry (setEntry m k v) k = some v := by
  intro m
  induction m with
  | nil => simp [setEntry, getEntry]
  | cons e rest ih =>
    by_cases h : e.1 = k
    · simp [setEntry, getEntry, h]
    · simp [setEntry, getEntry, h, ih]

theorem getEntry_setEntry_ne {β : Type} (k k' : String) (v : β) (hne : k' ≠ k) :
    ∀ m : List (String × β), getEntry (setEntry m k v) k' = getEntry m k' := by
  intro m
  induction m with
  | nil => simp [setEntry, getEntry, Ne.symm hne]
  | cons e rest ih =>
    by_cases h : e.1 = k
    · simp [setEntry, getEntry, h, Ne.symm hne]
    · simp [setEntry, getEntry, h, ih]

theorem keys_setEntry {β : Type} (k : String) (v : β) :
    ∀ m : List (String × β),
      keys (setEntry m k v) = if k ∈ keys m then keys m else keys m ++ [k] := by
  intro m
  induction m with
  | nil => simp [setEntry, keys]
  | cons e rest ih =>
    by_cases h : e.1 = k
    · simp [setEntry, keys, h]
    · have hse : setEntry (e :: rest) k v = e :: setEntry rest k v := by
        simp [setEntry, h]
      rw [hse]
      simp only [keys, List.map_cons] at ih ⊢
      rw [ih]
      by_cases hk : k ∈ rest.map Prod.fst
      · simp [hk, List.mem_cons, Ne.symm h]
      · simp [hk, List.mem_cons, Ne.symm h]

theorem nodupKeys_setEntry {β : Type} (k : String) (v : β) (m : List (String × β))
    (h : (keys m).Nodup) : (keys (setEntry m k v)).Nodup := by
  rw [keys_setEntry]
  by_cases hk : k ∈ keys m
  · simpa [hk] using h
  · simp [hk, List.nodup_append, h]

theorem count_keys_setEntry_self {β : Type} (k : String) (v : β) (m : List (String × β))
    (h : (keys m).Nodup) : (keys (setEntry m k v)).count k = 1 := by
  rw [keys_setEntry]
  by_cases hk : k ∈ keys m
  · simpa [hk] using List.count_eq_one_of_mem h hk
  · simp [hk, List.count_append, List.count_eq_zero_of_not_mem hk]

theorem getEntry_eq_some_mem {β : Type} (k : String) (v : β) :
    ∀ m : List (String × β), getEntry m k = some v → ∃ e ∈ m, e.2 = v := by
  intro m
  induction m with
  | nil => simp [getEntry]
  | cons e rest ih =>
    by_cases h : e.1 = k
    · intro hg
      simp [getEntry, h] at hg
      exact ⟨e, List.mem_cons_self e rest, hg⟩
    · intro hg
      simp only [getEntry, h] at hg
      rw [if_neg (by simp [h])] at hg
      obtain ⟨e', he', hv⟩ := ih hg
      exact ⟨e', List.mem_cons_of_mem e he', hv⟩

/-! ### Lemmas about strings -/

theorem key_inj (b x y : String) (h : b ++ "__" ++ x = b ++ "__" ++ y) : x = y := by
  have hd := congrArg String.data h
  rw [String.data_append, String.data_append, String.data_append,
    String.data_append] at hd
  exact String.ext (List.append_cancel_left hd)

theorem append_ne_of_take_ne (p₁ p₂ s₁ s₂ : String) (n : Nat)
    (h₁ : n ≤ p₁.data.length) (h₂ : n ≤ p₂.data.length)
    (hne : p₁.data.take n ≠ p₂.data.take n) : p₁ ++ s₁ ≠ p₂ ++ s₂ := by
  intro h
  have hd := congrArg String.data h
  rw [String.data_append, String.data_append] at hd
  have ht := congrArg (List.take n) hd
  rw [List.take_append_of_le_length h₁, List.take_append_of_le_length h₂] at ht
  exact hne ht

/-! ### Lemmas about the cache registration fold -/

theorem cache_foldl_getEntry (b t : String) :
    ∀ (tools : List ToolDefinition) (m : List (String × CachedTool)),
      ((∃ td ∈ tools, td.name = t) ∨
        (∃ c, getEntry m (b ++ "__" ++ t) = some c ∧ c.serverName = b ∧
          c.originalName = t ∧ c.prefixedName = b ++ "__" ++ t ∧
          c.definition.name = b ++ "__" ++ t)) →
      ∃ c, getEntry (tools.foldl (cacheStep b) m) (b ++ "__" ++ t) = some c ∧
        c.serverName = b ∧ c.originalName = t ∧ c.prefixedName = b ++ "__" ++ t ∧
        c.definition.name = b ++ "__" ++ t := by
  intro tools
  induction tools with
  | nil =>
    intro m h
    rcases h with ⟨td, htd, _⟩ | h
    · exact absurd htd (List.not_mem_nil td)
    · simpa using h
  | cons td rest ih =>
    intro m h
    rw [List.foldl_cons]
    apply ih
    by_cases hname : td.name = t
    · right
      subst hname
      exact ⟨_, getEntry_setEntry_self _ _ m, rfl, rfl, rfl, rfl⟩
    · rcases h with ⟨td', htd', hn'⟩ | ⟨c, hc, hprops⟩
      · left
        rcases List.mem_cons.mp htd' with rfl | hmem
        · exact absurd hn' hname
        · exact ⟨td', hmem, hn'⟩
      · right
        refine ⟨c, ?_, hprops⟩
        have hkne : (b ++ "__" ++ t) ≠ (b ++ "__" ++ td.name) :=
          fun he => hname ((key_inj b t td.name he).symm)
        simp only [cacheStep]
        rw [getEntry_setEntry_ne _ _ _ hkne]
        exact hc

/-- Shared consequence of the fold lemma: a registered tool's prefixed name
resolves to its backend and original name. -/
theorem addFromServer_getRoute (c : ToolCache) (b t : String)
    (tools : List ToolDefinition) (h : ∃ td ∈ tools, td.name = t) :
    (c.addFromServer b tools).getRoute (b ++ "__" ++ t) = some ⟨b, t⟩ := by
  obtain ⟨cc, hget, hs, ho, _, _⟩ := cache_foldl_getEntry b t tools c.tools (Or.inl h)
  simp [ToolCache.getRoute, ToolCache.get, ToolCache.addFromServer, hget, hs, ho]

/-- Shared consequence of the fold lemma: a registered tool's definition
appears (under its prefixed name) among all cached definitions. -/
theorem addFromServer_mem_defs (c : ToolCache) (b t : String)
    (tools : List ToolDefinition) (h : ∃ td ∈ tools, td.name = t) :
    ∃ d ∈ (c.addFromServer b tools).getAllDefinitions, d.name = b ++ "__" ++ t := by
  obtain ⟨cc, hget, _, _, _, hd⟩ := cache_foldl_getEntry b t tools c.tools (Or.inl h)
  obtain ⟨e, he, he2⟩ := getEntry_eq_some_mem _ _ _ hget
  exact ⟨e.2.definition, List.mem_map.mpr ⟨e, he, rfl⟩, by rw [he2, hd]⟩

/-! ### Concrete fixtures used by witnesses and counterexamples -/

/-- A concrete tool definition. -/
def tdEx : ToolDefinition := ⟨"t", "a sample tool", JsonDoc.emptyObjectSchema, none⟩

/-- A concrete cache holding the single tool `srv__t`. -/
def cacheEx : ToolCache := (ToolCache.mk []).addFromServer "srv" [tdEx]

/-- A concrete tool reference entry. -/
def refEx (s : String) : ToolRefEntry := ⟨"tool_reference", s⟩

/-- A concrete Bedrock response carrying one search-result block with five
ordered tool references. -/
def respEx5 : BedrockResponse :=
  ⟨"resp1", "message", "assistant",
    [⟨"tool_search_tool_result", some "tu1",
      some ⟨"tool_search_tool_search_result",
        some [refEx "r1", refEx "r2", refEx "r3", refEx "r4", refEx "r5"]⟩⟩],
    "claude", "end_turn", none, ⟨1, 1⟩⟩

/-- A concrete backend configuration. -/
def cfgEx : BackendServerConfig := ⟨some "node", none, none, none, none, none, none⟩

/-- A concrete backend client behavior. -/
def fnEx : String → Args → Except String BackendResult := fun _ _ => Except.ok "res"

/-- A concrete pool: one live client `srv` sharing `cacheEx`. -/
def poolEx : BackendPool := ⟨[("srv", ⟨fnEx, cfgEx⟩)], cacheEx⟩

/-! ### C1 -/

/-- C1: for every backend identifier `b` and tool definition list containing
a tool with original name `t`, `addFromServer` for `b` followed by `getRoute`
on `b ++ "__" ++ t` returns exactly the pair `(b, t)`. -/
theorem register_then_resolveRoute (c : ToolCache) (b t : String)
    (tools : List ToolDefinition) (h : ∃ td ∈ tools, td.name = t) :
    (c.addFromServer b tools).getRoute (b ++ "__" ++ t) = some ⟨b, t⟩ :=
  addFromServer_getRoute c b t tools h

/-- Witness for C1 at a concrete registration. -/
theorem register_then_resolveRoute_witness :
    ((ToolCache.mk []).addFromServer "srv" [tdEx]).getRoute ("srv" ++ "__" ++ "t") =
      some ⟨"srv", "t"⟩ :=
  register_then_resolveRoute ⟨[]⟩ "srv" "t" [tdEx]
    ⟨tdEx, List.mem_singleton.mpr rfl, rfl⟩

/-! ### C2 -/

/-- C2: when two registrations compute the same unique identifier, the cache
afterwards holds exactly one entry under that identifier, the one from the
later registration (looked up both under the later and the earlier
registration's computed key); the earlier entry is replaced. -/
theorem addFromServer_collision_last_wins (c : ToolCache) (b₁ b₂ : String)
    (t₁ t₂ : ToolDefinition) (hnd : (keys c.tools).Nodup)
    (hk : b₁ ++ "__" ++ t₁.name = b₂ ++ "__" ++ t₂.name) :
    (keys (((c.addFromServer b₁ [t₁]).addFromServer b₂ [t₂]).tools)).count
        (b₂ ++ "__" ++ t₂.name) = 1
  ∧ ((c.addFromServer b₁ [t₁]).addFromServer b₂ [t₂]).get (b₂ ++ "__" ++ t₂.name) =
      some ⟨b₂, t₂.name, b₂ ++ "__" ++ t₂.name,
        { t₂ with name := b₂ ++ "__" ++ t₂.name }⟩
  ∧ ((c.addFromServer b₁ [t₁]).addFromServer b₂ [t₂]).get (b₁ ++ "__" ++ t₁.name) =
      some ⟨b₂, t₂.name, b₂ ++ "__" ++ t₂.name,
        { t₂ with name := b₂ ++ "__" ++ t₂.name }⟩ := by
  have hsingle : ∀ (cc : ToolCache) (b : String) (td : ToolDefinition),
      (cc.addFromServer b [td]).tools = cacheStep b cc.tools td := fun _ _ _ => rfl
  refine ⟨?_, ?_, ?_⟩
  · rw [hsingle, hsingle]
    simp only [cacheStep]
    exact count_keys_setEntry_self _ _ _ (nodupKeys_setEntry _ _ _ hnd)
  · show getEntry ((c.addFromServer b₁ [t₁]).addFromServer b₂ [t₂]).tools _ = _
    rw [hsingle, hsingle]
    simp only [cacheStep]
    exact getEntry_setEntry_self _ _ _
  · show getEntry ((c.addFromServer b₁ [t₁]).addFromServer b₂ [t₂]).tools _ = _
    rw [hk, hsingle, hsingle]
    simp only [cacheStep]
    exact getEntry_setEntry_self _ _ _

/-- Witness for C2: two different backends (`a` with tool `b__c`, `a__b` with
tool `c`) produce the same unique identifier `a__b__c`. -/
theorem addFromServer_collision_last_wins_witness :
    (keys ((((ToolCache.mk []).addFromServer "a"
          [⟨"b__c", "d1", JsonDoc.emptyObjectSchema, none⟩]).addFromServer "a__b"
          [⟨"c", "d2", JsonDoc.emptyObjectSchema, none⟩]).tools)).count
        ("a__b" ++ "__" ++ "c") = 1
  ∧ (((ToolCache.mk []).addFromServer "a"
          [⟨"b__c", "d1", JsonDoc.emptyObjectSchema, none⟩]).addFromServer "a__b"
          [⟨"c", "d2", JsonDoc.emptyObjectSchema, none⟩]).get ("a__b" ++ "__" ++ "c") =
      some ⟨"a__b", "c", "a__b" ++ "__" ++ "c",
        ⟨"a__b" ++ "__" ++ "c", "d2", JsonDoc.emptyObjectSchema, none⟩⟩
  ∧ (((ToolCache.mk []).addFromServer "a"
          [⟨"b__c", "d1", JsonDoc.emptyObjectSchema, none⟩]).addFromServer "a__b"
          [⟨"c", "d2", JsonDoc.emptyObjectSchema, none⟩]).get ("a" ++ "__" ++ "b__c") =
      some ⟨"a__b", "c", "a__b" ++ "__" ++ "c",
        ⟨"a__b" ++ "__" ++ "c", "d2", JsonDoc.emptyObjectSchema, none⟩⟩ :=
  addFromServer_collision_last_wins ⟨[]⟩ "a" "a__b"
    ⟨"b__c", "d1", JsonDoc.emptyObjectSchema, none⟩
    ⟨"c", "d2", JsonDoc.emptyObjectSchema, none⟩ (by simp [keys]) (by decide)

/-! ### C9 -/

/-- C9: in every cache state, the length of `getAllDefinitions` equals
`size`. -/
theorem allDefinitions_length_eq_size (c : ToolCache) :
    c.getAllDefinitions.length = c.size := by
  simp [ToolCache.getAllDefinitions, ToolCache.size]

/-! ### C4 -/

/-- C4: search_tools with a non-empty query while the cache is empty returns
the structured no-tools payload (an `error` field and `tool_references: []`,
with `isError` false), and the result does not depend on the Bedrock oracle,
i.e. the external search capability is not invoked. -/
theorem searchTools_empty_cache (cache : ToolCache) (q : String) (mr : Option Nat)
    (send send₂ : SearchRequestBody → Except String BedrockResponse)
    (hq : q ≠ "") (hc : cache.size = 0) :
    searchToolsHandler cache (some q) mr send =
      ⟨.noToolsPayload "No tools available. Backend servers may not be connected." [],
        false⟩
  ∧ searchToolsHandler cache (some q) mr send =
      searchToolsHandler cache (some q) mr send₂ := by
  have htools : cache.tools = [] := List.length_eq_zero.mp hc
  have h : ∀ s : SearchRequestBody → Except String BedrockResponse,
      searchToolsHandler cache (some q) mr s =
        ⟨.noToolsPayload "No tools available. Backend servers may not be connected." [],
          false⟩ := by
    intro s
    simp [searchToolsHandler, strFalsy, hq, ToolCache.getAllDefinitions, htools]
  exact ⟨h send, (h send).trans (h send₂).symm⟩

/-- Witness for C4 at a concrete empty cache and two distinct oracles. -/
theorem searchTools_empty_cache_witness :
    searchToolsHandler ⟨[]⟩ (some "x") none (fun _ => Except.error "a") =
      ⟨.noToolsPayload "No tools available. Backend servers may not be connected." [],
        false⟩
  ∧ searchToolsHandler ⟨[]⟩ (some "x") none (fun _ => Except.error "a") =
      searchToolsHandler ⟨[]⟩ (some "x") none (fun _ => Except.error "b") :=
  searchTools_empty_cache ⟨[]⟩ "x" none _ _ (by decide) rfl

/-! ### C3 (corrected) -/

/-- C3 counterexample: the claim predicts that a caller-supplied
`max_results = 0` returns the first zero references (the empty list); the
handler's `max_results || 5` defaulting treats 0 as falsy and returns the
first five instead. -/
theorem searchTools_zero_maxResults_cex :
    refsOf (searchToolsHandler cacheEx (some "x") (some 0)
        (fun _ => Except.ok respEx5)) ≠
      (collectToolRefs respEx5).take 0 := by
  decide

/-- C3 (amended): with a non-empty query and non-empty cache, the handler
returns exactly the first `m` collected references, in response order, for
every caller-supplied nonzero `m`; an unspecified `max_results` — or a
caller-supplied 0, which JS `||` treats as falsy — defaults the limit
to 5. -/
theorem searchTools_truncation (cache : ToolCache) (q : String) (m : Nat)
    (resp : BedrockResponse) (hq : q ≠ "")
    (hc : cache.getAllDefinitions ≠ []) (hm : m ≠ 0) :
    refsOf (searchToolsHandler cache (some q) (some m) (fun _ => Except.ok resp)) =
      (collectToolRefs resp).take m
  ∧ refsOf (searchToolsHandler cache (some q) none (fun _ => Except.ok resp)) =
      (collectToolRefs resp).take 5
  ∧ refsOf (searchToolsHandler cache (some q) (some 0) (fun _ => Except.ok resp)) =
      (collectToolRefs resp).take 5 := by
  have hlen : (cache.getAllDefinitions.length == 0) = false := by
    rw [beq_eq_false_iff_ne]
    simpa [List.length_eq_zero] using hc
  refine ⟨?_, ?_, ?_⟩ <;>
    simp [searchToolsHandler, strFalsy, hq, hlen, natOr, hm, invokeWithToolSearch,
      extractToolReferences, refsOf]

/-- Witness for C3's amended theorem: `max_results = 2` against a response
with five ordered references returns exactly the first two, in order. -/
theorem searchTools_truncation_witness :
    refsOf (searchToolsHandler cacheEx (some "x") (some 2)
        (fun _ => Except.ok respEx5)) = (collectToolRefs respEx5).take 2
  ∧ refsOf (searchToolsHandler cacheEx (some "x") none
        (fun _ => Except.ok respEx5)) = (collectToolRefs respEx5).take 5
  ∧ refsOf (searchToolsHandler cacheEx (some "x") (some 0)
        (fun _ => Except.ok respEx5)) = (collectToolRefs respEx5).take 5 :=
  searchTools_truncation cacheEx "x" 2 respEx5 (by decide) (by decide) (by decide)

/-! ### C5 -/

/-- C5: call_tool with an identifier absent from the cache returns an error
result whose text contains the literal identifier, and attempts no backend
dispatch: the result is the same for every set of connected clients. -/
theorem callTool_unknown_tool (pool : BackendPool) (nm : String) (args : Option Args)
    (hn : nm ≠ "") (hroute : pool.toolCache.getRoute nm = none) :
    callToolHandler pool (some nm) args = ⟨unknownToolText nm, true⟩
  ∧ (callToolHandler pool (some nm) args).isError = true
  ∧ (∃ pre post, (callToolHandler pool (some nm) args).text = pre ++ nm ++ post)
  ∧ ∀ clients₂, callToolHandler ⟨clients₂, pool.toolCache⟩ (some nm) args =
      callToolHandler pool (some nm) args := by
  have h : ∀ p₂ : BackendPool, p₂.toolCache = pool.toolCache →
      callToolHandler p₂ (some nm) args = ⟨unknownToolText nm, true⟩ := by
    intro p₂ hp
    simp [callToolHandler, strFalsy, hn, hp, hroute]
  refine ⟨h pool rfl, ?_, ?_,
    fun clients₂ => (h ⟨clients₂, pool.toolCache⟩ rfl).trans (h pool rfl).symm⟩
  · rw [h pool rfl]
  · rw [h pool rfl]
    exact ⟨"Error: Unknown tool \"",
      "\". Use search_tools to find available tools.", rfl⟩

/-- Witness for C5 at an empty pool and the identifier `nope`. -/
theorem callTool_unknown_tool_witness :
    callToolHandler ⟨[], ⟨[]⟩⟩ (some "nope") none = ⟨unknownToolText "nope", true⟩
  ∧ (callToolHandler ⟨[], ⟨[]⟩⟩ (some "nope") none).isError = true
  ∧ (∃ pre post, (callToolHandler ⟨[], ⟨[]⟩⟩ (some "nope") none).text =
      pre ++ "nope" ++ post)
  ∧ ∀ clients₂,
      callToolHandler ⟨clients₂, (⟨[], ⟨[]⟩⟩ : BackendPool).toolCache⟩ (some "nope") none =
        callToolHandler ⟨[], ⟨[]⟩⟩ (some "nope") none :=
  callTool_unknown_tool ⟨[], ⟨[]⟩⟩ "nope" none (by decide) rfl

/-! ### C6 and C10 -/

/-- Shared helper: after `close`, invoking any identifier still routed by the
cache produces the caught backend-not-found error. -/
theorem callToolHandler_after_close (p : BackendPool) (nm : String) (r : ToolRoute)
    (args : Option Args) (hn : nm ≠ "") (hr : p.toolCache.getRoute nm = some r) :
    callToolHandler p.close (some nm) args =
      ⟨"Error calling tool: " ++ ("Backend server not found: " ++ r.server), true⟩ := by
  simp [callToolHandler, strFalsy, hn, BackendPool.close, hr, BackendPool.callTool,
    getEntry]

/-- C6: after `close()` every `callTool` fails with "Backend server not
found", so a subsequent invoke of a previously valid identifier yields the
backend-not-found error condition rather than a successful dispatch. -/
theorem close_then_callTool_fails (p : BackendPool) (s toolName : String) (a : Args)
    (nm : String) (r : ToolRoute) (args : Option Args)
    (hn : nm ≠ "") (hr : p.toolCache.getRoute nm = some r) :
    p.close.callTool s toolName a = .error ("Backend server not found: " ++ s)
  ∧ callToolHandler p.close (some nm) args =
      ⟨"Error calling tool: " ++ ("Backend server not found: " ++ r.server), true⟩ :=
  ⟨by simp [BackendPool.close, BackendPool.callTool, getEntry],
    callToolHandler_after_close p nm r args hn hr⟩

/-- Witness for C6 at a concrete pool with one live client and one cached
tool. -/
theorem close_then_callTool_fails_witness :
    poolEx.close.callTool "x" "y" [] = .error ("Backend server not found: " ++ "x")
  ∧ callToolHandler poolEx.close (some "srv__t") none =
      ⟨"Error calling tool: " ++ ("Backend server not found: " ++ "srv"), true⟩ :=
  close_then_callTool_fails poolEx "x" "y" [] "srv__t" ⟨"srv", "t"⟩ none
    (by decide) (by decide)

/-- C10: `close()` leaves the shared tool cache unchanged (it clears only the
client set), so lookups, routes and the size are preserved, and a post-close
invoke fails in the pool with the backend-not-found error, never with the
handler's unknown-tool condition. -/
theorem close_preserves_cache (p : BackendPool) (nm : String) (r : ToolRoute)
    (args : Option Args) (hn : nm ≠ "") (hr : p.toolCache.getRoute nm = some r) :
    p.close.toolCache = p.toolCache
  ∧ p.close.toolCache.get nm = p.toolCache.get nm
  ∧ p.close.toolCache.getRoute nm = some r
  ∧ p.close.toolCache.size = p.toolCache.size
  ∧ callToolHandler p.close (some nm) args =
      ⟨"Error calling tool: " ++ ("Backend server not found: " ++ r.server), true⟩
  ∧ callToolHandler p.close (some nm) args ≠ ⟨unknownToolText nm, true⟩ := by
  refine ⟨rfl, rfl, hr, rfl, callToolHandler_after_close p nm r args hn hr, ?_⟩
  rw [callToolHandler_after_close p nm r args hn hr]
  intro hcontra
  have htext := congrArg CallToolResult.text hcontra
  simp only [unknownToolText, String.append_assoc] at htext
  exact append_ne_of_take_ne "Error calling tool: " "Error: Unknown tool \"" _ _ 6
    (by decide) (by decide) (by decide) htext

/-- Witness for C10 at the same concrete pool. -/
theorem close_preserves_cache_witness :
    poolEx.close.toolCache = poolEx.toolCache
  ∧ poolEx.close.toolCache.get "srv__t" = poolEx.toolCache.get "srv__t"
  ∧ poolEx.close.toolCache.getRoute "srv__t" = some ⟨"srv", "t"⟩
  ∧ poolEx.close.toolCache.size = poolEx.toolCache.size
  ∧ callToolHandler poolEx.close (some "srv__t") none =
      ⟨"Error calling tool: " ++ ("Backend server not found: " ++ "srv"), true⟩
  ∧ callToolHandler poolEx.close (some "srv__t") none ≠
      ⟨unknownToolText "srv__t", true⟩ :=
  close_preserves_cache poolEx "srv__t" ⟨"srv", "t"⟩ none (by decide) (by decide)

/-! ### C7 -/

/-- Helper: a list of backends that all fail to connect leaves the pool
unchanged (initialization still completes, in a degraded state). -/
theorem initializePool_all_fail : ∀ (L : List BackendEntry) (p : BackendPool),
    (∀ e ∈ L, ConnectOutcome.isFail e.2.2 = true) → initializePool p L = p := by
  intro L
  induction L with
  | nil => intro p _; rfl
  | cons e rest ih =>
    intro p hL
    obtain ⟨n, cf, o⟩ := e
    cases o with
    | fail msg =>
      exact ih p (fun e he => hL e (List.mem_cons_of_mem _ he))
    | ok raw fn =>
      have := hL (n, cf, ConnectOutcome.ok raw fn) (List.mem_cons_self _ _)
      simp [ConnectOutcome.isFail] at this

/-- C7: a backend whose connection attempt throws is skipped while every
remaining backend is still processed identically; initialization completes
(as the identity) even when every backend fails; and the tools of a backend
that does connect still resolve, appear among all definitions, and dispatch
to that backend's live connection. -/
theorem initialize_isolates_failures
    (p : BackendPool) (L₁ L₂ L : List BackendEntry)
    (nf n : String) (cf cfg : BackendServerConfig) (msg : String)
    (raw : List RawTool) (fn : String → Args → Except String BackendResult)
    (r : RawTool) (a : Args)
    (hr : r ∈ raw) (hL : ∀ e ∈ L, ConnectOutcome.isFail e.2.2 = true) :
    initializePool p (L₁ ++ (nf, cf, ConnectOutcome.fail msg) :: L₂) =
      initializePool p (L₁ ++ L₂)
  ∧ initializePool p L = p
  ∧ (initializePool p (L₁ ++ (nf, cf, ConnectOutcome.fail msg) ::
        (L₂ ++ [(n, cfg, ConnectOutcome.ok raw fn)]))).toolCache.getRoute
      (n ++ "__" ++ r.name) = some ⟨n, r.name⟩
  ∧ (∃ d ∈ (initializePool p (L₁ ++ (nf, cf, ConnectOutcome.fail msg) ::
        (L₂ ++ [(n, cfg, ConnectOutcome.ok raw fn)]))).toolCache.getAllDefinitions,
      d.name = n ++ "__" ++ r.name)
  ∧ (initializePool p (L₁ ++ (nf, cf, ConnectOutcome.fail msg) ::
        (L₂ ++ [(n, cfg, ConnectOutcome.ok raw fn)]))).callTool n r.name a =
      fn r.name a := by
  have hskip : ∀ L₂' : List BackendEntry,
      initializePool p (L₁ ++ (nf, cf, ConnectOutcome.fail msg) :: L₂') =
        initializePool p (L₁ ++ L₂') := by
    intro L₂'
    simp [initializePool, List.foldl_append, List.foldl_cons, connectStep]
  have hmem : ∃ td ∈ raw.map RawTool.toDefinition, td.name = r.name :=
    ⟨r.toDefinition, List.mem_map.mpr ⟨r, hr, rfl⟩, rfl⟩
  have hend : initializePool p (L₁ ++ (nf, cf, ConnectOutcome.fail msg) ::
      (L₂ ++ [(n, cfg, ConnectOutcome.ok raw fn)])) =
      connectStep (initializePool p (L₁ ++ L₂)) (n, cfg, ConnectOutcome.ok raw fn) := by
    rw [hskip, show L₁ ++ (L₂ ++ [(n, cfg, ConnectOutcome.ok raw fn)]) =
        (L₁ ++ L₂) ++ [(n, cfg, ConnectOutcome.ok raw fn)] from
      (List.append_assoc L₁ L₂ _).symm]
    simp [initializePool, List.foldl_append]
  refine ⟨hskip L₂, initializePool_all_fail L p hL, ?_, ?_, ?_⟩
  · rw [hend]
    exact addFromServer_getRoute _ n r.name _ hmem
  · rw [hend]
    exact addFromServer_mem_defs _ n r.name _ hmem
  · rw [hend]
    simp [connectStep, BackendPool.callTool, getEntry_setEntry_self]

/-- Witness for C7: one failing backend `bad` followed by a succeeding
backend `b` with a single tool `t`. -/
theorem initialize_isolates_failures_witness :
    initializePool ⟨[], ⟨[]⟩⟩ ([] ++ ("bad", cfgEx, ConnectOutcome.fail "boom") :: []) =
      initializePool ⟨[], ⟨[]⟩⟩ ([] ++ [])
  ∧ initializePool ⟨[], ⟨[]⟩⟩ [("bad", cfgEx, ConnectOutcome.fail "boom")] = ⟨[], ⟨[]⟩⟩
  ∧ (initializePool ⟨[], ⟨[]⟩⟩ ([] ++ ("bad", cfgEx, ConnectOutcome.fail "boom") ::
        ([] ++ [("b", cfgEx, ConnectOutcome.ok [⟨"t", none, none⟩] fnEx)]))).toolCache.getRoute
      ("b" ++ "__" ++ RawTool.name ⟨"t", none, none⟩) =
        some ⟨"b", RawTool.name ⟨"t", none, none⟩⟩
  ∧ (∃ d ∈ (initializePool ⟨[], ⟨[]⟩⟩ ([] ++ ("bad", cfgEx, ConnectOutcome.fail "boom") ::
        ([] ++ [("b", cfgEx, ConnectOutcome.ok [⟨"t", none, none⟩] fnEx)]))).toolCache.getAllDefinitions,
      d.name = "b" ++ "__" ++ RawTool.name ⟨"t", none, none⟩)
  ∧ (initializePool ⟨[], ⟨[]⟩⟩ ([] ++ ("bad", cfgEx, ConnectOutcome.fail "boom") ::
        ([] ++ [("b", cfgEx, ConnectOutcome.ok [⟨"t", none, none⟩] fnEx)]))).callTool
      "b" (RawTool.name ⟨"t", none, none⟩) [] = fnEx (RawTool.name ⟨"t", none, none⟩) [] :=
  initialize_isolates_failures ⟨[], ⟨[]⟩⟩ [] []
    [("bad", cfgEx, ConnectOutcome.fail "boom")] "bad" "b" cfgEx cfgEx "boom"
    [⟨"t", none, none⟩] fnEx ⟨"t", none, none⟩ []
    (List.mem_singleton.mpr rfl)
    (by intro e he; rw [List.mem_singleton] at he; subst he; rfl)

/-! ### C8 -/

/-- Whether a request tool entry is marked for deferred loading (an absent
flag is falsy, i.e. not deferred). -/
def isDeferredEntry : RequestToolEntry → Bool
  | .searchCapability _ _ => false
  | .definitionEntry d => d.defer_loading.getD false

/-- C8: the tool list of the constructed search request is exactly one
un-deferred search-capability descriptor placed first, followed by every
cached definition, each with the deferred-loading flag set to true. -/
theorem searchRequest_tools_shape (messages : List Message)
    (tools : List ToolDefinition) (searchType : String) :
    (buildSearchRequestBody messages tools searchType).tools =
      RequestToolEntry.searchCapability searchType searchType ::
        tools.map (fun t => RequestToolEntry.definitionEntry
          { t with defer_loading := some true })
  ∧ (buildSearchRequestBody messages tools searchType).tools.head? =
      some (RequestToolEntry.searchCapability searchType searchType)
  ∧ isDeferredEntry (RequestToolEntry.searchCapability searchType searchType) = false
  ∧ ((buildSearchRequestBody messages tools searchType).tools.tail.all
      isDeferredEntry) = true
  ∧ (buildSearchRequestBody messages tools searchType).tools.length =
      tools.length + 1 := by
  refine ⟨rfl, rfl, rfl, ?_, by simp [buildSearchRequestBody]⟩
  simp [buildSearchRequestBody, List.all_eq_true, isDeferredEntry]

end ToolProxy
